import Mathlib

/-!
Verification of `haystack/admin.py` (the `SearchChangeList` admin adapter).

The module is embedded shallowly:

* `request.GET` becomes an association list `List (String × String)` in
  iteration order (Django `QueryDict` iteration yields each distinct key once).
* Python `dict` objects become association lists built with `dictInsert`,
  which updates the first binding of an existing key in place and appends a
  fresh key at the end — exactly the CPython insertion-order semantics.
* The regex `^.*__(.*$)` (greedy `.*`) captures the text after the rightmost
  occurrence of `"__"`; `lastDunderSplit` computes the corresponding split.
* The external `dateutil.parser.parse` is a parameter `pd : String → Option Int`
  (`none` models the caught `TypeError`/`ValueError`); a concrete instance
  `isoParse` is provided for evaluation.
* Django's `Paginator` (an external collaborator of this repository) is
  modelled by `paginatorNumPages`/`paginatorPage` following Django's
  documented semantics with the default options the code uses.
-/

namespace HaystackAdmin

/-- `self.valid_lookups` from `SearchChangeList.__init__`. -/
def valid_lookups : List String :=
  ["contains", "exact", "gt", "gte", "lt", "lte", "in", "startswith"]

/-- Split a character list at the rightmost occurrence of `"__"`, returning
the part before it and the part after it.  This is what the greedy regex
`^.*__(.*$)` captures (`findall` group) together with what
`re.sub("__{lookup}$", "", param)` leaves (the part before). -/
def lastDunderSplit : List Char → Option (List Char × List Char)
  | [] => none
  | c :: rest =>
    match lastDunderSplit rest with
    | some (p, s) => some (c :: p, s)
    | none =>
      match c, rest with
      | '_', '_' :: rest2 => some ([], rest2)
      | _, _ => none

/-- The `(model_attr, lookup)` pair extracted from a GET parameter name:
`none` when the name contains no `"__"` (the `IndexError` branch). -/
def splitLookup (param : String) : Option (String × String) :=
  match lastDunderSplit param.data with
  | some (p, s) => some (String.mk p, String.mk s)
  | none => none

/-- Python `dict` insertion: update the binding of an existing key in place,
append a new key at the end (CPython insertion-order semantics). -/
def dictInsert {α : Type} (m : List (String × α)) (k : String) (v : α) :
    List (String × α) :=
  match m with
  | [] => [(k, v)]
  | p :: rest => if p.1 = k then (k, v) :: rest else p :: dictInsert rest k v

/-- Python `dict.get`: the value bound to `k`, if any. -/
def dictGet {α : Type} (m : List (String × α)) (k : String) : Option α :=
  match m with
  | [] => none
  | p :: rest => if p.1 = k then some p.2 else dictGet rest k

/-- Phase 1 of `custom_get_filters`: the
`model_attr__lookup__query_map_list`, i.e. for each GET parameter that has a
`"__"` and whose trailing lookup token is in `valid_lookups`, the triple
(model_attr, lookup, query). -/
def attrLookupList (params : List (String × String)) :
    List (String × String × String) :=
  params.filterMap (fun pq =>
    match splitLookup pq.1 with
    | none => none
    | some (attr, lookup) =>
      if lookup ∈ valid_lookups then some (attr, lookup, pq.2) else none)

/-- Phase 2 of `custom_get_filters`: the `model_attr__indexed_field_map`
built from the index's `fields.items()` (pairs of field name and
`model_attr`, in iteration order). -/
def buildAttrMap (fields : List (String × String)) : List (String × String) :=
  fields.foldl (fun m nf => dictInsert m nf.2 nf.1) []

/-- A translated filter value: either the original string or a parsed date/time
value (dates are represented abstractly by an integer code). -/
inductive FilterValue : Type
  | str : String → FilterValue
  | date : Int → FilterValue
deriving DecidableEq, Repr

/-- The value coercion in the "Magic" loop: when the query string contains
both `'-'` and `':'`, attempt a date parse and keep the parse result on
success, falling back to the original string when the parse raises. -/
def coerceQuery (pd : String → Option Int) (q : String) : FilterValue :=
  if q.data.contains '-' && q.data.contains ':' then
    match pd q with
    | some d => FilterValue.date d
    | none => FilterValue.str q
  else FilterValue.str q

/-- `SearchChangeList.custom_get_filters`: translate GET parameters into the
`indexed_field__query_map` handed to `SearchQuerySet.filter`.
`pd` stands for the external `dateutil.parser.parse`; `fields` is the index's
`fields.items()` as (name, model_attr) pairs; `params` is `request.GET.items()`. -/
def custom_get_filters (pd : String → Option Int)
    (fields : List (String × String)) (params : List (String × String)) :
    List (String × FilterValue) :=
  let attrMap := buildAttrMap fields
  (attrLookupList params).foldl
    (fun m t =>
      match dictGet attrMap t.1 with
      | some nm =>
        if nm = "" then m
        else dictInsert m (nm ++ "__" ++ t.2.1) (coerceQuery pd t.2.2)
      | none => m) []

/-- The contribution of a single GET parameter to the translated map: the
translated key and coerced value, or `none` when the parameter is dropped
(no `"__"`, invalid lookup, unmatched `model_attr`, or falsy field name). -/
def paramContribution (pd : String → Option Int)
    (attrMap : List (String × String)) (p : String × String) :
    Option (String × FilterValue) :=
  match splitLookup p.1 with
  | none => none
  | some (attr, lookup) =>
    if lookup ∈ valid_lookups then
      match dictGet attrMap attr with
      | some nm =>
        if nm = "" then none
        else some (nm ++ "__" ++ lookup, coerceQuery pd p.2)
      | none => none
    else none

/-- Processing one GET parameter against the accumulated translated map. -/
def applyParam (pd : String → Option Int) (attrMap : List (String × String))
    (m : List (String × FilterValue)) (p : String × String) :
    List (String × FilterValue) :=
  match paramContribution pd attrMap p with
  | some kv => dictInsert m kv.1 kv.2
  | none => m

/-- Split a character list at every occurrence of the separator. -/
def splitOnChar (c : Char) : List Char → List (List Char)
  | [] => [[]]
  | x :: xs =>
    if x = c then [] :: splitOnChar c xs
    else
      match splitOnChar c xs with
      | [] => [[x]]
      | g :: gs => (x :: g) :: gs

/-- The numeric value of a non-empty all-digit character group. -/
def digitsVal (cs : List Char) : Option Nat :=
  if cs ≠ [] ∧ cs.all Char.isDigit then
    some (cs.foldl (fun n c => n * 10 + (c.toNat - 48)) 0)
  else none

/-- A concrete stand-in for the external `dateutil.parser.parse`, accepting
ISO `YYYY-MM-DDTHH:MM:SS` timestamps (dateutil accepts these among many
other formats); used to evaluate the development on concrete inputs.  The
six components are packed into one integer code. -/
def isoParse (s : String) : Option Int :=
  match splitOnChar 'T' s.data with
  | [d, t] =>
    match (splitOnChar '-' d).mapM digitsVal, (splitOnChar ':' t).mapM digitsVal with
    | some [yn, mon, dan], some [hn, mi, se] =>
      some (Int.ofNat (((((yn * 13 + mon) * 32 + dan) * 24 + hn) * 60 + mi) * 60 + se))
    | _, _ => none
  | _ => none

/-- Django's `SEARCH_VAR` (the admin search-box GET parameter). -/
def SEARCH_VAR : String := "q"

/-- `SEARCH_VAR in request.GET`. -/
def hasKey (params : List (String × String)) (k : String) : Bool :=
  params.any (fun p => p.1 = k)

/-- `request.GET[k]`: `QueryDict.__getitem__` returns the last value set for
the key (for the distinct-key item lists modelling `QueryDict` iteration the
key occurs once). -/
def getVal (params : List (String × String)) (k : String) : String :=
  (params.foldl (fun acc p => if p.1 = k then some p.2 else acc) none).getD ""

/-- `len(request.GET.keys())`: the number of distinct keys. -/
def numKeys (params : List (String × String)) : Nat :=
  ((params.map Prod.fst).dedup).length

/-- The guard shared by `get_ordering` and `get_results`:
`SEARCH_VAR not in request.GET or (len(request.GET[SEARCH_VAR]) is 0 and
len(request.GET.keys()) is 1)` — true exactly when search is inactive. -/
def searchInactive (params : List (String × String)) : Bool :=
  !(hasKey params SEARCH_VAR) ||
    ((getVal params SEARCH_VAR).length == 0 && numKeys params == 1)

/-- `field.lstrip('-')`: remove every leading `'-'`. -/
def lstripDashes (s : String) : String :=
  String.mk (s.data.dropWhile (fun c => c = '-'))

/-- A request: its GET items (in iteration order) and whether the method is
`POST`. -/
structure Request where
  GET : List (String × String)
  isPost : Bool

/-- `SearchChangeList.get_ordering`.  `ordering` is the sequence computed by
`super().get_ordering(request, queryset)` (host-framework code, passed in);
`defaultPkField` is `settings.HAYSTACK_ADMIN_DEFAULT_ORDER_BY_FIELD` (with
`none` for absent, and the truthiness test treating `""` as falsy);
`indexedFields` is `indexed_model.fields.keys()`. -/
def get_ordering (req : Request) (defaultPkField : Option String)
    (indexedFields : List String) (ordering : List String) : List String :=
  if searchInactive req.GET || req.isPost then ordering
  else
    let pk := defaultPkField.getD ""
    if pk ≠ "" then
      ordering.foldl (fun sane field =>
        let field := if field ∈ ["-pk", "-id"] then "-" ++ pk
                     else if field ∈ ["pk", "id"] then pk
                     else field
        if lstripDashes field ∈ indexedFields then sane ++ [field]
        else sane) []
    else
      ordering.filter (fun x => decide (x ∉ ["pk", "-pk", "id", "-id"]))

/-- The per-field rewrite of the substitute-primary-key branch, stated as
the spec states it: `pk`/`id` (with or without a leading sign) become the
substitute field, preserving the sign; everything else is untouched. -/
def pkRewrite (pk : String) (field : String) : String :=
  if field ∈ ["-pk", "-id"] then "-" ++ pk
  else if field ∈ ["pk", "id"] then pk
  else field

/-- Django `Paginator.num_pages` with the default `orphans=0`,
`allow_empty_first_page=True`: `ceil(max(1, count) / per_page)`. -/
def paginatorNumPages (count perPage : Nat) : Nat :=
  (max 1 count + perPage - 1) / perPage

/-- Django `Paginator.page n` (1-based): the slice of the requested page, or
an `InvalidPage` error when `n` is out of `1 .. num_pages`. -/
def paginatorPage {α : Type} (items : List α) (perPage n : Nat) :
    Except Unit (List α) :=
  if 1 ≤ n ∧ n ≤ paginatorNumPages items.length perPage then
    Except.ok ((items.drop ((n - 1) * perPage)).take perPage)
  else Except.error ()

/-- The fields `get_results` populates on the changelist (`paginator` — a
handle to the external object — is omitted). Domain objects are identified
by natural numbers. -/
structure ChangeListResults where
  result_count : Nat
  full_result_count : Nat
  result_list : List Nat
  can_show_all : Bool
  multi_page : Bool
deriving DecidableEq, Repr

/-- `SearchChangeList.get_results`.  `superResults` is what
`super().get_results(request)` would populate (host-framework code);
`sqs` is the hit list the external search index returns for the built query,
where an entry `none` models a falsy/unresolvable hit dropped by
`[result.object for result in result_list if result]`; `fullResultCount` is
the external unfiltered count; `pageNum` is the 0-based `self.page_num`. -/
def get_results (params : List (String × String))
    (superResults : ChangeListResults) (sqs : List (Option Nat))
    (fullResultCount perPage maxShowAll pageNum : Nat) : ChangeListResults :=
  if searchInactive params then superResults
  else
    let result_count := sqs.length
    let can_show_all := decide (result_count ≤ maxShowAll)
    let multi_page := decide (result_count > perPage)
    let result_list :=
      match paginatorPage sqs perPage (pageNum + 1) with
      | Except.ok page => page.filterMap id
      | Except.error _ => []
    { result_count := result_count
      full_result_count := fullResultCount
      result_list := result_list
      can_show_all := can_show_all
      multi_page := multi_page }

/-! ### Dictionary lemmas -/

theorem dictGet_dictInsert_self {α : Type} (m : List (String × α)) (k : String)
    (v : α) : dictGet (dictInsert m k v) k = some v := by
  induction m with
  | nil => simp [dictInsert, dictGet]
  | cons p rest ih =>
    by_cases h : p.1 = k
    · simp [dictInsert, dictGet, h]
    · simp [dictInsert, dictGet, h, ih]

theorem dictGet_dictInsert_ne {α : Type} (m : List (String × α)) (k k' : String)
    (v : α) (h : k' ≠ k) : dictGet (dictInsert m k' v) k = dictGet m k := by
  induction m with
  | nil => simp [dictInsert, dictGet, h]
  | cons p rest ih =>
    have h2 : ¬ k = k' := fun hh => h hh.symm
    by_cases hp : p.1 = k'
    · have hpk : ¬ p.1 = k := by rw [hp]; exact h
      simp [dictInsert, dictGet, hp, hpk, h, h2]
    · by_cases hpk : p.1 = k
      · simp [dictInsert, dictGet, hp, hpk, h, h2]
      · simp [dictInsert, dictGet, hp, hpk, ih, h, h2]

/-! ### Fold characterizations of `custom_get_filters` -/

theorem custom_get_filters_foldl_aux (pd : String → Option Int)
    (am : List (String × String)) :
    ∀ (params : List (String × String)) (m : List (String × FilterValue)),
      (attrLookupList params).foldl
        (fun m t =>
          match dictGet am t.1 with
          | some nm =>
            if nm = "" then m
            else dictInsert m (nm ++ "__" ++ t.2.1) (coerceQuery pd t.2.2)
          | none => m) m =
      params.foldl (applyParam pd am) m := by
  intro params
  induction params with
  | nil => intro m; rfl
  | cons p rest ih =>
    intro m
    simp only [attrLookupList] at ih
    cases hs : splitLookup p.1 with
    | none =>
      simp [attrLookupList, List.filterMap_cons, hs, applyParam,
        paramContribution, ih]
    | some al =>
      rcases al with ⟨attr, lookup⟩
      by_cases hl : lookup ∈ valid_lookups
      · cases hg : dictGet am attr with
        | none =>
          simp [attrLookupList, List.filterMap_cons, hs, hl, hg, applyParam,
            paramContribution, ih]
        | some nm =>
          by_cases hnm : nm = ""
          · simp [attrLookupList, List.filterMap_cons, hs, hl, hg, hnm,
              applyParam, paramContribution, ih]
          · simp [attrLookupList, List.filterMap_cons, hs, hl, hg, hnm,
              applyParam, paramContribution, ih]
      · simp [attrLookupList, List.filterMap_cons, hs, hl, applyParam,
          paramContribution, ih]

theorem custom_get_filters_eq_foldl (pd : String → Option Int)
    (fields : List (String × String)) (params : List (String × String)) :
    custom_get_filters pd fields params =
      params.foldl (applyParam pd (buildAttrMap fields)) [] :=
  custom_get_filters_foldl_aux pd (buildAttrMap fields) params []

/-- Tracing a binding of the translated map back to the GET parameter that
wrote it (the last one that did). -/
theorem dictGet_foldl_applyParam (pd : String → Option Int)
    (am : List (String × String)) :
    ∀ (l : List (String × String)) (m : List (String × FilterValue))
      (k : String) (v : FilterValue),
      dictGet (l.foldl (applyParam pd am) m) k = some v →
      (∃ p ∈ l, paramContribution pd am p = some (k, v)) ∨ dictGet m k = some v := by
  intro l
  induction l with
  | nil => intro m k v h; exact Or.inr h
  | cons p rest ih =>
    intro m k v h
    rw [List.foldl_cons] at h
    rcases ih (applyParam pd am m p) k v h with hrest | hm
    · rcases hrest with ⟨q, hq, hqc⟩
      exact Or.inl ⟨q, List.mem_cons_of_mem p hq, hqc⟩
    · cases hc : paramContribution pd am p with
      | none =>
        simp only [applyParam, hc] at hm
        exact Or.inr hm
      | some kv =>
        simp only [applyParam, hc] at hm
        by_cases hk : kv.1 = k
        · rw [hk, dictGet_dictInsert_self] at hm
          injection hm with hv
          refine Or.inl ⟨p, List.mem_cons_self p rest, ?_⟩
          rw [hc, ← hk, ← hv]
        · rw [dictGet_dictInsert_ne _ _ _ _ hk] at hm
          exact Or.inr hm

/-- GET parameters that do not contribute to a key leave its binding alone. -/
theorem dictGet_foldl_applyParam_frame (pd : String → Option Int)
    (am : List (String × String)) :
    ∀ (l : List (String × String)) (m : List (String × FilterValue)) (k : String),
      (∀ p ∈ l, ∀ kv, paramContribution pd am p = some kv → kv.1 ≠ k) →
      dictGet (l.foldl (applyParam pd am) m) k = dictGet m k := by
  intro l
  induction l with
  | nil => intro m k _; rfl
  | cons p rest ih =>
    intro m k hno
    rw [List.foldl_cons]
    rw [ih (applyParam pd am m p) k (fun q hq => hno q (List.mem_cons_of_mem p hq))]
    cases hc : paramContribution pd am p with
    | none => simp only [applyParam, hc]
    | some kv =>
      simp only [applyParam, hc]
      exact dictGet_dictInsert_ne _ _ _ _ (hno p (List.mem_cons_self p rest) kv hc)

/-! ### Lemmas about the model_attr map -/

theorem dictGet_buildAttrMap_mem_aux :
    ∀ (l : List (String × String)) (m0 : List (String × String)) (attr nm : String),
      dictGet (l.foldl (fun m nf => dictInsert m nf.2 nf.1) m0) attr = some nm →
      (nm, attr) ∈ l ∨ dictGet m0 attr = some nm := by
  intro l
  induction l with
  | nil => intro m0 attr nm h; exact Or.inr h
  | cons nf rest ih =>
    intro m0 attr nm h
    rw [List.foldl_cons] at h
    rcases ih (dictInsert m0 nf.2 nf.1) attr nm h with hrest | hm
    · exact Or.inl (List.mem_cons_of_mem nf hrest)
    · by_cases ha : nf.2 = attr
      · rw [ha, dictGet_dictInsert_self] at hm
        cases hm
        refine Or.inl ?_
        rw [← ha]
        exact List.mem_cons_self nf rest
      · rw [dictGet_dictInsert_ne _ _ _ _ ha] at hm
        exact Or.inr hm

/-- A hit in the model_attr map comes from an actual index field whose
`model_attr` is the looked-up attribute path. -/
theorem dictGet_buildAttrMap_mem (fields : List (String × String))
    (attr nm : String) (h : dictGet (buildAttrMap fields) attr = some nm) :
    (nm, attr) ∈ fields := by
  rcases dictGet_buildAttrMap_mem_aux fields [] attr nm h with hm | hnil
  · exact hm
  · cases hnil

theorem dictGet_buildAttrMap_none_aux :
    ∀ (l : List (String × String)) (m0 : List (String × String)) (attr : String),
      (∀ fd ∈ l, fd.2 ≠ attr) →
      dictGet (l.foldl (fun m nf => dictInsert m nf.2 nf.1) m0) attr =
        dictGet m0 attr := by
  intro l
  induction l with
  | nil => intro m0 attr _; rfl
  | cons nf rest ih =>
    intro m0 attr hno
    rw [List.foldl_cons]
    rw [ih (dictInsert m0 nf.2 nf.1) attr (fun fd hfd => hno fd (List.mem_cons_of_mem nf hfd))]
    exact dictGet_dictInsert_ne _ _ _ _ (hno nf (List.mem_cons_self nf rest))

/-- When no index field has the looked-up attribute path as its `model_attr`,
the model_attr map lookup misses. -/
theorem dictGet_buildAttrMap_none (fields : List (String × String))
    (attr : String) (h : ∀ fd ∈ fields, fd.2 ≠ attr) :
    dictGet (buildAttrMap fields) attr = none :=
  dictGet_buildAttrMap_none_aux fields [] attr h

/-! ### Characterization of `get_ordering` -/

theorem get_ordering_foldl_aux (pk : String) (indexedFields : List String) :
    ∀ (ordering : List String) (acc : List String),
      ordering.foldl (fun sane field =>
        let field := if field ∈ ["-pk", "-id"] then "-" ++ pk
                     else if field ∈ ["pk", "id"] then pk
                     else field
        if lstripDashes field ∈ indexedFields then sane ++ [field]
        else sane) acc =
      acc ++ (ordering.map (pkRewrite pk)).filter
        (fun x => decide (lstripDashes x ∈ indexedFields)) := by
  have hfun : (fun (sane : List String) (field : String) =>
      let field := if field ∈ ["-pk", "-id"] then "-" ++ pk
                   else if field ∈ ["pk", "id"] then pk
                   else field
      if lstripDashes field ∈ indexedFields then sane ++ [field]
      else sane) =
      (fun sane field =>
        if lstripDashes (pkRewrite pk field) ∈ indexedFields
        then sane ++ [pkRewrite pk field] else sane) := rfl
  rw [hfun]
  intro ordering
  induction ordering with
  | nil => intro acc; simp
  | cons f rest ih =>
    intro acc
    by_cases hf : lstripDashes (pkRewrite pk f) ∈ indexedFields
    · simp [List.filter_cons, hf, ih, List.append_assoc]
    · simp [List.filter_cons, hf, ih]

/-- In the search-active, substitute-configured case `get_ordering` is the
pk rewrite followed by the restriction to index fields. -/
theorem get_ordering_some_eq (req : Request) (h : searchInactive req.GET = false)
    (hp : req.isPost = false) (pk : String) (hpk : pk ≠ "")
    (indexedFields ordering : List String) :
    get_ordering req (some pk) indexedFields ordering =
      (ordering.map (pkRewrite pk)).filter
        (fun x => decide (lstripDashes x ∈ indexedFields)) := by
  rw [get_ordering]
  simp only [h, hp, Bool.or_self, Bool.false_eq_true, if_false, Option.getD_some]
  rw [if_pos hpk, get_ordering_foldl_aux]
  simp

/-- In the search-active, no-substitute case `get_ordering` only removes the
primary-key sort fields. -/
theorem get_ordering_none_eq (req : Request) (h : searchInactive req.GET = false)
    (hp : req.isPost = false) (indexedFields ordering : List String) :
    get_ordering req none indexedFields ordering =
      ordering.filter (fun x => decide (x ∉ ["pk", "-pk", "id", "-id"])) := by
  rw [get_ordering]
  simp [h, hp]

/-! ### Classification of search-active requests -/

theorem hasKey_iff (params : List (String × String)) (k : String) :
    hasKey params k = true ↔ ∃ p ∈ params, p.1 = k := by
  simp [hasKey, List.any_eq_true]

theorem numKeys_one_iff (params : List (String × String))
    (hnd : (params.map Prod.fst).Nodup) (hk : hasKey params SEARCH_VAR = true) :
    numKeys params = 1 ↔ ∀ p ∈ params, p.1 = SEARCH_VAR := by
  have hlen : numKeys params = params.length := by
    rw [numKeys, List.dedup_eq_self.mpr hnd, List.length_map]
  rw [hlen]
  match params with
  | [] => simp [hasKey] at hk
  | [p0] =>
    simp only [hasKey, List.any_cons, List.any_nil, Bool.or_false,
      decide_eq_true_eq] at hk
    simp [hk]
  | p0 :: p1 :: rest =>
    simp only [List.map_cons, List.nodup_cons, List.mem_cons, List.mem_map] at hnd
    constructor
    · intro h1
      simp at h1
    · intro hall
      exfalso
      have h0 : p0.1 = SEARCH_VAR := hall p0 (by simp)
      have h1 : p1.1 = SEARCH_VAR := hall p1 (by simp)
      exact hnd.1 (Or.inl (h0.trans h1.symm))

theorem string_length_zero_iff (s : String) : s.length = 0 ↔ s = "" := by
  constructor
  · intro h
    cases s with
    | mk data =>
      cases data with
      | nil => rfl
      | cons c rest => simp [String.length] at h
  · intro h
    rw [h]
    rfl

/-- The guard `searchInactive` is `false` exactly when the search parameter
is present and either non-empty or accompanied by another parameter. -/
theorem searchInactive_false_iff (params : List (String × String))
    (hnd : (params.map Prod.fst).Nodup) :
    searchInactive params = false ↔
      hasKey params SEARCH_VAR = true ∧
        (getVal params SEARCH_VAR ≠ "" ∨ ∃ p ∈ params, p.1 ≠ SEARCH_VAR) := by
  by_cases hk : hasKey params SEARCH_VAR = true
  · rw [searchInactive]
    simp only [hk, Bool.not_true, Bool.false_or, Bool.and_eq_false_iff,
      beq_eq_false_iff_ne, ne_eq, string_length_zero_iff, true_and]
    have hnum := numKeys_one_iff params hnd hk
    constructor
    · rintro (hv | hn)
      · exact Or.inl hv
      · refine Or.inr ?_
        by_contra hno
        push_neg at hno
        exact hn (hnum.mpr (fun p hp => hno p hp))
    · rintro (hv | ⟨p, hp, hpk⟩)
      · exact Or.inl hv
      · refine Or.inr (fun h1 => hpk (hnum.mp h1 p hp))
  · simp only [Bool.not_eq_true] at hk
    simp [searchInactive, hk]

/-- Inverting a successful parameter contribution. -/
theorem paramContribution_inv (pd : String → Option Int)
    (am : List (String × String)) (p : String × String) (k : String)
    (v : FilterValue) (h : paramContribution pd am p = some (k, v)) :
    ∃ attr lookup nm : String,
      splitLookup p.1 = some (attr, lookup) ∧ lookup ∈ valid_lookups ∧
      dictGet am attr = some nm ∧ nm ≠ "" ∧
      k = nm ++ "__" ++ lookup ∧ v = coerceQuery pd p.2 := by
  rw [paramContribution] at h
  cases hs : splitLookup p.1 with
  | none => simp [hs] at h
  | some al =>
    rcases al with ⟨attr, lookup⟩
    simp only [hs] at h
    by_cases hl : lookup ∈ valid_lookups
    · rw [if_pos hl] at h
      cases hg : dictGet am attr with
      | none => simp [hg] at h
      | some nm =>
        simp only [hg] at h
        by_cases hnm : nm = ""
        · simp [hnm] at h
        · simp only [if_neg hnm, Option.some.injEq, Prod.mk.injEq] at h
          exact ⟨attr, lookup, nm, rfl, hl, hg, hnm, h.1.symm, h.2.symm⟩
    · simp [hl] at h

/-- C1 counterexample: take the admin's configured filter list to be empty,
so that no parameter's declared filter name appears in it.  The parameter
`business__id__exact` nevertheless survives translation — the code never
consults any admin filter list, refuting the claimed necessary condition. -/
theorem custom_get_filters_ignores_admin_filter_list :
    dictGet (custom_get_filters isoParse [("business", "business__id")]
        [("q", "x"), ("business__id__exact", "23")]) "business__exact" =
      some (FilterValue.str "23") ∧
    ∀ s : String, s ∉ ([] : List String) :=
  ⟨rfl, fun s => List.not_mem_nil s⟩

/-- C1 (amended): a parameter survives filter translation only if its
derived attribute path (the name with the lookup suffix stripped) is the
`model_attr` of a known indexed field and its trailing lookup token is in
the changelist's `valid_lookups`; parameters failing either condition are
silently dropped.  (No admin-configured filter list is consulted.) -/
theorem custom_get_filters_survival_conditions
    (pd : String → Option Int) (fields params : List (String × String))
    (k : String) (v : FilterValue)
    (h : dictGet (custom_get_filters pd fields params) k = some v) :
    ∃ p ∈ params, ∃ attr lookup nm : String,
      splitLookup p.1 = some (attr, lookup) ∧
      lookup ∈ valid_lookups ∧
      (nm, attr) ∈ fields ∧
      k = nm ++ "__" ++ lookup := by
  rw [custom_get_filters_eq_foldl] at h
  rcases dictGet_foldl_applyParam pd (buildAttrMap fields) params [] k v h with
    ⟨p, hp, hc⟩ | hnil
  · rcases paramContribution_inv pd (buildAttrMap fields) p k v hc with
      ⟨attr, lookup, nm, hs, hl, hg, _, hk, _⟩
    exact ⟨p, hp, attr, lookup, nm, hs, hl,
      dictGet_buildAttrMap_mem fields attr nm hg, hk⟩
  · simp [dictGet] at hnil

theorem custom_get_filters_survival_conditions_witness :
    ∃ p ∈ [("q", "x"), ("business__id__exact", "23")],
      ∃ attr lookup nm : String,
        splitLookup p.1 = some (attr, lookup) ∧
        lookup ∈ valid_lookups ∧
        (nm, attr) ∈ [("business", "business__id")] ∧
        "business__exact" = nm ++ "__" ++ lookup :=
  custom_get_filters_survival_conditions isoParse [("business", "business__id")]
    [("q", "x"), ("business__id__exact", "23")] "business__exact"
    (FilterValue.str "23") (by rfl)

/-- C4: a parameter with no `"__"`, or whose trailing lookup token is
outside the fixed operator set, or whose stripped attribute path is the
`model_attr` of no indexed field, contributes nothing to the translated
mapping: the result is the same as if the parameter were absent. -/
theorem custom_get_filters_drops_invalid_params
    (pd : String → Option Int) (fields pre post : List (String × String))
    (p : String × String)
    (h : splitLookup p.1 = none ∨
      ∃ attr lookup, splitLookup p.1 = some (attr, lookup) ∧
        (lookup ∉ valid_lookups ∨ ∀ fd ∈ fields, fd.2 ≠ attr)) :
    custom_get_filters pd fields (pre ++ p :: post) =
      custom_get_filters pd fields (pre ++ post) := by
  have hc : paramContribution pd (buildAttrMap fields) p = none := by
    rcases h with hnone | ⟨attr, lookup, hs, hbad⟩
    · simp [paramContribution, hnone]
    · rcases hbad with hl | hattr
      · simp [paramContribution, hs, hl]
      · by_cases hl2 : lookup ∈ valid_lookups <;>
          simp [paramContribution, hs, hl2,
            dictGet_buildAttrMap_none fields attr hattr]
  rw [custom_get_filters_eq_foldl, custom_get_filters_eq_foldl,
    List.foldl_append, List.foldl_append, List.foldl_cons]
  have ha : applyParam pd (buildAttrMap fields)
      (pre.foldl (applyParam pd (buildAttrMap fields)) []) p =
      pre.foldl (applyParam pd (buildAttrMap fields)) [] := by
    simp only [applyParam, hc]
  rw [ha]

theorem custom_get_filters_drops_invalid_params_witness :
    custom_get_filters isoParse [("name", "name")]
        ([("q", "x")] ++ ("plain", "1") :: [("name__exact", "bob")]) =
      custom_get_filters isoParse [("name", "name")]
        ([("q", "x")] ++ [("name__exact", "bob")]) :=
  custom_get_filters_drops_invalid_params isoParse [("name", "name")]
    [("q", "x")] [("name__exact", "bob")] ("plain", "1") (Or.inl (by rfl))

/-- The value coercion as a case split on the hyphen/colon heuristic. -/
theorem coerceQuery_eq (pd : String → Option Int) (q : String) :
    coerceQuery pd q =
      if '-' ∈ q.data ∧ ':' ∈ q.data then
        (match pd q with
         | some d => FilterValue.date d
         | none => FilterValue.str q)
      else FilterValue.str q := by
  rw [coerceQuery]
  by_cases h : '-' ∈ q.data ∧ ':' ∈ q.data
  · rw [if_pos h]
    have hb : (q.data.contains '-' && q.data.contains ':') = true := by
      simpa using h
    rw [if_pos hb]
  · rw [if_neg h]
    have hb : ¬ (q.data.contains '-' && q.data.contains ':') = true := by
      intro hb
      apply h
      simpa using hb
    rw [if_neg hb]

/-- C7: every value surviving translation comes from some request parameter
and is: the original string when the value lacks a hyphen or a colon; the
original string when it has both but the date parse fails; and the parsed
date/time value when the parse succeeds. -/
theorem custom_get_filters_value_coercion
    (pd : String → Option Int) (fields params : List (String × String))
    (k : String) (v : FilterValue)
    (h : dictGet (custom_get_filters pd fields params) k = some v) :
    ∃ p ∈ params,
      (¬ ('-' ∈ p.2.data ∧ ':' ∈ p.2.data) → v = FilterValue.str p.2) ∧
      (('-' ∈ p.2.data ∧ ':' ∈ p.2.data) → pd p.2 = none →
        v = FilterValue.str p.2) ∧
      (∀ d : Int, ('-' ∈ p.2.data ∧ ':' ∈ p.2.data) → pd p.2 = some d →
        v = FilterValue.date d) := by
  rw [custom_get_filters_eq_foldl] at h
  rcases dictGet_foldl_applyParam pd (buildAttrMap fields) params [] k v h with
    ⟨p, hp, hc⟩ | hnil
  · rcases paramContribution_inv pd (buildAttrMap fields) p k v hc with
      ⟨attr, lookup, nm, _, _, _, _, _, hv⟩
    refine ⟨p, hp, ?_, ?_, ?_⟩
    · intro hno
      rw [hv, coerceQuery_eq, if_neg hno]
    · intro hyes hfail
      rw [hv, coerceQuery_eq, if_pos hyes]
      simp [hfail]
    · intro d hyes hok
      rw [hv, coerceQuery_eq, if_pos hyes]
      simp [hok]
  · simp [dictGet] at hnil

theorem custom_get_filters_value_coercion_witness :
    (∃ p ∈ [("q", "x"), ("created__exact", "2020-01-15T10:00:00"),
        ("name__exact", "abc")],
      (¬ ('-' ∈ p.2.data ∧ ':' ∈ p.2.data) →
        FilterValue.date 72607744800 = FilterValue.str p.2) ∧
      (('-' ∈ p.2.data ∧ ':' ∈ p.2.data) → isoParse p.2 = none →
        FilterValue.date 72607744800 = FilterValue.str p.2) ∧
      (∀ d : Int, ('-' ∈ p.2.data ∧ ':' ∈ p.2.data) → isoParse p.2 = some d →
        FilterValue.date 72607744800 = FilterValue.date d)) ∧
    dictGet (custom_get_filters isoParse [("created", "created"), ("name", "name")]
        [("q", "x"), ("created__exact", "2020-01-15T10:00:00"),
          ("name__exact", "abc")]) "name__exact" =
      some (FilterValue.str "abc") :=
  ⟨custom_get_filters_value_coercion isoParse
      [("created", "created"), ("name", "name")]
      [("q", "x"), ("created__exact", "2020-01-15T10:00:00"),
        ("name__exact", "abc")]
      "created__exact" (FilterValue.date 72607744800) (by rfl), by rfl⟩

/-- C9: when a parameter contributes a translated key and no later parameter
contributes the same key, the translated mapping holds that parameter's
coerced value: on duplicate translated keys the last write in iteration
order wins. -/
theorem custom_get_filters_last_write_wins
    (pd : String → Option Int) (fields pre post : List (String × String))
    (p : String × String) (k : String) (v : FilterValue)
    (hc : paramContribution pd (buildAttrMap fields) p = some (k, v))
    (hpost : ∀ q ∈ post, ∀ kv,
      paramContribution pd (buildAttrMap fields) q = some kv → kv.1 ≠ k) :
    dictGet (custom_get_filters pd fields (pre ++ p :: post)) k = some v := by
  rw [custom_get_filters_eq_foldl, List.foldl_append, List.foldl_cons]
  rw [dictGet_foldl_applyParam_frame pd (buildAttrMap fields) post _ k hpost]
  simp only [applyParam, hc]
  exact dictGet_dictInsert_self _ k v

theorem custom_get_filters_last_write_wins_witness :
    dictGet (custom_get_filters isoParse [("a", "a")]
        ([("a__exact", "1")] ++ ("a__exact", "2") :: [])) "a__exact" =
      some (FilterValue.str "2") :=
  custom_get_filters_last_write_wins isoParse [("a", "a")]
    [("a__exact", "1")] [] ("a__exact", "2") "a__exact" (FilterValue.str "2")
    (by rfl) (fun q hq => absurd hq (List.not_mem_nil q))

/-- C5: with search active and a substitute primary-key field configured,
`get_ordering` rewrites every `pk`/`id` sort field (sign preserved) to the
substitute field and then drops any resulting field not in the index. -/
theorem get_ordering_substitute_rewrite (req : Request)
    (h : searchInactive req.GET = false) (hp : req.isPost = false)
    (pk : String) (hpk : pk ≠ "") (indexedFields ordering : List String) :
    get_ordering req (some pk) indexedFields ordering =
      (ordering.map (pkRewrite pk)).filter
        (fun x => decide (lstripDashes x ∈ indexedFields)) :=
  get_ordering_some_eq req h hp pk hpk indexedFields ordering

theorem get_ordering_substitute_rewrite_witness :
    get_ordering ⟨[("q", "x")], false⟩ (some "created_at")
      ["created_at", "text"] ["-id"] = ["-created_at"] :=
  (get_ordering_substitute_rewrite ⟨[("q", "x")], false⟩ (by rfl) rfl
    "created_at" (by decide) ["created_at", "text"] ["-id"]).trans (by rfl)

/-- C2 counterexample: with search active and no substitute field
configured, the non-index ordering field `rank` is not dropped: the
translated ordering is `["rank"]`, not the empty list the claim requires. -/
theorem get_ordering_no_substitute_keeps_unindexed :
    get_ordering ⟨[("q", "x")], false⟩ none ["text"] ["rank"] = ["rank"] ∧
    "rank" ∉ ["text"] := by
  exact ⟨rfl, by decide⟩

/-- C2 (amended): with search active, in the substitute-configured case
every field of the translated ordering is an index field (non-index fields
such as `rank` are dropped), while in the no-substitute case only the
primary-key sort fields `pk`, `-pk`, `id`, `-id` are dropped and any other
field — indexed or not — passes through. -/
theorem get_ordering_drop_behavior (req : Request)
    (h : searchInactive req.GET = false) (hp : req.isPost = false)
    (pk : String) (hpk : pk ≠ "") (indexedFields ordering : List String) :
    (∀ x ∈ get_ordering req (some pk) indexedFields ordering,
      lstripDashes x ∈ indexedFields) ∧
    get_ordering req none indexedFields ordering =
      ordering.filter (fun x => decide (x ∉ ["pk", "-pk", "id", "-id"])) := by
  constructor
  · intro x hx
    rw [get_ordering_some_eq req h hp pk hpk indexedFields ordering] at hx
    rcases List.mem_filter.mp hx with ⟨_, hcond⟩
    simpa using hcond
  · exact get_ordering_none_eq req h hp indexedFields ordering

theorem get_ordering_drop_behavior_witness :
    (∀ x ∈ get_ordering ⟨[("q", "x")], false⟩ (some "created_at") ["text"]
        ["rank"], lstripDashes x ∈ ["text"]) ∧
    get_ordering ⟨[("q", "x")], false⟩ none ["text"] ["rank"] =
      ["rank"].filter (fun x => decide (x ∉ ["pk", "-pk", "id", "-id"])) :=
  get_ordering_drop_behavior ⟨[("q", "x")], false⟩ (by rfl) rfl "created_at"
    (by decide) ["text"] ["rank"]

/-- C3: search is classified active exactly when the search parameter is
present and either non-empty or accompanied by another parameter; when it
is inactive, `get_results` returns the superclass result unmodified. -/
theorem search_active_classification_and_delegation
    (params : List (String × String)) (superResults : ChangeListResults)
    (sqs : List (Option Nat)) (fullResultCount perPage maxShowAll pageNum : Nat) :
    ((params.map Prod.fst).Nodup →
      (searchInactive params = false ↔
        hasKey params SEARCH_VAR = true ∧
          (getVal params SEARCH_VAR ≠ "" ∨ ∃ p ∈ params, p.1 ≠ SEARCH_VAR))) ∧
    (searchInactive params = true →
      get_results params superResults sqs fullResultCount perPage maxShowAll
        pageNum = superResults) := by
  constructor
  · exact fun hnd => searchInactive_false_iff params hnd
  · intro hin
    rw [get_results, if_pos hin]

theorem search_active_classification_and_delegation_witness :
    (searchInactive [("q", "")] = false ↔
      hasKey [("q", "")] SEARCH_VAR = true ∧
        (getVal [("q", "")] SEARCH_VAR ≠ "" ∨
          ∃ p ∈ ([("q", "")] : List (String × String)), p.1 ≠ SEARCH_VAR)) ∧
    get_results [("q", "")] ⟨3, 5, [7], true, false⟩ [] 0 10 100 0 =
      ⟨3, 5, [7], true, false⟩ :=
  ⟨(search_active_classification_and_delegation [("q", "")]
      ⟨3, 5, [7], true, false⟩ [] 0 10 100 0).1 (by decide),
   (search_active_classification_and_delegation [("q", "")]
      ⟨3, 5, [7], true, false⟩ [] 0 10 100 0).2 (by rfl)⟩

/-- The search-active branch of `get_results`, written as a record. -/
theorem get_results_active (params : List (String × String))
    (superResults : ChangeListResults) (sqs : List (Option Nat))
    (fullResultCount perPage maxShowAll pageNum : Nat)
    (hact : searchInactive params = false) :
    get_results params superResults sqs fullResultCount perPage maxShowAll
      pageNum =
      { result_count := sqs.length
        full_result_count := fullResultCount
        result_list :=
          match paginatorPage sqs perPage (pageNum + 1) with
          | Except.ok page => page.filterMap id
          | Except.error _ => []
        can_show_all := decide (sqs.length ≤ maxShowAll)
        multi_page := decide (sqs.length > perPage) } := by
  rw [get_results, if_neg (by simp [hact])]

/-- A successfully returned page is bounded by the page size and by the
number of items. -/
theorem paginatorPage_ok_length {α : Type} (items : List α) (perPage n : Nat)
    (page : List α) (h : paginatorPage items perPage n = Except.ok page) :
    page.length ≤ perPage ∧ page.length ≤ items.length := by
  rw [paginatorPage] at h
  by_cases hc : 1 ≤ n ∧ n ≤ paginatorNumPages items.length perPage
  · rw [if_pos hc] at h
    injection h with h
    rw [← h, List.length_take]
    refine ⟨Nat.min_le_left _ _, le_trans (Nat.min_le_right _ _) ?_⟩
    rw [List.length_drop]
    omega
  · rw [if_neg hc] at h
    cases h

/-- The result list computed by the search-active branch of `get_results`
(it depends only on the hit list, the page size and the page number). -/
theorem get_results_result_list (params : List (String × String))
    (superResults : ChangeListResults) (sqs : List (Option Nat))
    (fullResultCount perPage maxShowAll pageNum : Nat)
    (hact : searchInactive params = false) :
    (get_results params superResults sqs fullResultCount perPage maxShowAll
      pageNum).result_list =
      match paginatorPage sqs perPage (pageNum + 1) with
      | Except.ok page => page.filterMap id
      | Except.error _ => [] := by
  rw [get_results_active params superResults sqs fullResultCount perPage
    maxShowAll pageNum hact]

/-- C6: with search active, an out-of-range page number yields an empty
result list (the caught `InvalidPage` branch) rather than an error. -/
theorem get_results_out_of_range_page_empty
    (params : List (String × String)) (superResults : ChangeListResults)
    (sqs : List (Option Nat)) (fullResultCount perPage maxShowAll pageNum : Nat)
    (hact : searchInactive params = false)
    (hoor : paginatorNumPages sqs.length perPage < pageNum + 1) :
    (get_results params superResults sqs fullResultCount perPage maxShowAll
      pageNum).result_list = [] := by
  rw [get_results_result_list params superResults sqs fullResultCount perPage
    maxShowAll pageNum hact]
  have hcond : ¬ (pageNum + 1 ≤ paginatorNumPages sqs.length perPage) := by
    omega
  simp [paginatorPage, hcond]

theorem get_results_out_of_range_page_empty_witness :
    (get_results [("q", "x")] ⟨0, 0, [], false, false⟩
      [some 1, some 2, some 3] 7 10 100 4).result_list = [] :=
  get_results_out_of_range_page_empty [("q", "x")] ⟨0, 0, [], false, false⟩
    [some 1, some 2, some 3] 7 10 100 4 (by rfl) (by decide)

/-- C8 counterexample: two hits against a max-show-all ceiling of `2`: the
result count is not strictly below the ceiling, yet `can_show_all` is
`true`, because the code compares with `<=`. -/
theorem get_results_can_show_all_at_ceiling :
    (get_results [("q", "x")] ⟨0, 0, [], false, false⟩ [some 1, some 2]
      7 10 2 0).can_show_all = true ∧
    ¬ ((get_results [("q", "x")] ⟨0, 0, [], false, false⟩ [some 1, some 2]
      7 10 2 0).result_count < 2) := by
  exact ⟨rfl, by decide⟩

/-- C8 (amended): with search active, `can_show_all` holds exactly when the
result count is at or below the configured ceiling (non-strict), and
`multi_page` holds exactly when the result count strictly exceeds the
per-page size. -/
theorem get_results_show_all_multi_page
    (params : List (String × String)) (superResults : ChangeListResults)
    (sqs : List (Option Nat)) (fullResultCount perPage maxShowAll pageNum : Nat)
    (hact : searchInactive params = false) :
    ((get_results params superResults sqs fullResultCount perPage maxShowAll
        pageNum).can_show_all = true ↔
      (get_results params superResults sqs fullResultCount perPage maxShowAll
        pageNum).result_count ≤ maxShowAll) ∧
    ((get_results params superResults sqs fullResultCount perPage maxShowAll
        pageNum).multi_page = true ↔
      perPage < (get_results params superResults sqs fullResultCount perPage
        maxShowAll pageNum).result_count) := by
  rw [get_results_active params superResults sqs fullResultCount perPage
    maxShowAll pageNum hact]
  simp

theorem get_results_show_all_multi_page_witness :
    ((get_results [("q", "x")] ⟨0, 0, [], false, false⟩ [some 1, some 2]
        7 1 2 0).can_show_all = true ↔
      (get_results [("q", "x")] ⟨0, 0, [], false, false⟩ [some 1, some 2]
        7 1 2 0).result_count ≤ 2) ∧
    ((get_results [("q", "x")] ⟨0, 0, [], false, false⟩ [some 1, some 2]
        7 1 2 0).multi_page = true ↔
      1 < (get_results [("q", "x")] ⟨0, 0, [], false, false⟩ [some 1, some 2]
        7 1 2 0).result_count) :=
  get_results_show_all_multi_page [("q", "x")] ⟨0, 0, [], false, false⟩
    [some 1, some 2] 7 1 2 0 (by rfl)

/-- C10: with search active, the result count is the number of index hits
before falsy entries are removed; the displayed list is at most
`min(result_count, page size)` long; replacing hits by unresolvable entries
never changes the result count; and the displayed list can be strictly
shorter than the page's hit count. -/
theorem get_results_count_before_stale_drop
    (params : List (String × String)) (superResults : ChangeListResults)
    (sqs : List (Option Nat)) (fullResultCount perPage maxShowAll pageNum : Nat)
    (hact : searchInactive params = false) :
    (get_results params superResults sqs fullResultCount perPage maxShowAll
      pageNum).result_count = sqs.length ∧
    (get_results params superResults sqs fullResultCount perPage maxShowAll
      pageNum).result_list.length ≤ min sqs.length perPage ∧
    (∀ sqs2 : List (Option Nat), sqs2.length = sqs.length →
      (get_results params superResults sqs2 fullResultCount perPage maxShowAll
        pageNum).result_count =
      (get_results params superResults sqs fullResultCount perPage maxShowAll
        pageNum).result_count) ∧
    (∃ hits : List (Option Nat), hits.length ≤ 10 ∧
      (get_results params superResults hits fullResultCount 10 maxShowAll
        0).result_list.length < hits.length) := by
  have hre := get_results_active params superResults sqs fullResultCount
    perPage maxShowAll pageNum hact
  refine ⟨by rw [hre], ?_, ?_, ?_⟩
  · rw [hre]
    cases hpg : paginatorPage sqs perPage (pageNum + 1) with
    | error e => simp [hpg]
    | ok page =>
      simp only [hpg]
      have h1 : (page.filterMap id).length ≤ page.length :=
        List.length_filterMap_le id page
      have h2 := paginatorPage_ok_length sqs perPage (pageNum + 1) page hpg
      omega
  · intro sqs2 hlen
    rw [hre, get_results_active params superResults sqs2 fullResultCount
      perPage maxShowAll pageNum hact]
    simp [hlen]
  · refine ⟨[some 1, none], by decide, ?_⟩
    rw [get_results_result_list params superResults [some 1, none]
      fullResultCount 10 maxShowAll 0 hact]
    decide

theorem get_results_count_before_stale_drop_witness :
    (get_results [("q", "x")] ⟨0, 0, [], false, false⟩ [some 1, none, some 3]
      7 2 100 0).result_count = 3 ∧
    (get_results [("q", "x")] ⟨0, 0, [], false, false⟩ [some 1, none, some 3]
      7 2 100 0).result_list.length ≤ min 3 2 ∧
    (∀ sqs2 : List (Option Nat), sqs2.length = 3 →
      (get_results [("q", "x")] ⟨0, 0, [], false, false⟩ sqs2
        7 2 100 0).result_count =
      (get_results [("q", "x")] ⟨0, 0, [], false, false⟩ [some 1, none, some 3]
        7 2 100 0).result_count) ∧
    (∃ hits : List (Option Nat), hits.length ≤ 10 ∧
      (get_results [("q", "x")] ⟨0, 0, [], false, false⟩ hits
        7 10 100 0).result_list.length < hits.length) := by
  have h := get_results_count_before_stale_drop [("q", "x")]
    ⟨0, 0, [], false, false⟩ [some 1, none, some 3] 7 2 100 0 (by rfl)
  simpa using h

end HaystackAdmin
